import Mathlib

/-!
Verification of the git/filesystem safety-net command classifier.

The sources embedded here are `scripts/safety_net_impl/hook.py`,
`scripts/safety_net_impl/rules_git.py` and
`scripts/safety_net_impl/rules_sensitive.py`.  The helper module
`scripts/safety_net_impl/shell.py` and the delete engine
`scripts/safety_net_impl/rules_rm.py` are not part of the source tree;
the definitions that stand in for them are modelled from the design
document (sections 4.1, 4.2, 4.3 and 4.5) and are marked as such.

Strings are processed as their underlying `List Char`; Python string
primitives (`str.strip`, `str.lower`, `str.startswith`, ...) are given
small explicit counterparts so that every definition evaluates by kernel
reduction.
-/

/-- Python whitespace (`str.strip`, `\s` over ASCII). -/
def isPySpace (c : Char) : Bool :=
  c = ' ' ∨ c = '\t' ∨ c = '\n' ∨ c = '\r' ∨ c = '\x0b' ∨ c = '\x0c'

/-- Regex `\w` over the ASCII range (the analyzed text is ASCII command text). -/
def isWordChar (c : Char) : Bool :=
  c.isAlphanum ∨ c = '_'

/-- Python `str.strip()` on a character list. -/
def stripChars (l : List Char) : List Char :=
  ((l.dropWhile isPySpace).reverse.dropWhile isPySpace).reverse

/-- Python `str.strip()`. -/
def pyStrip (s : String) : String :=
  String.mk (stripChars s.data)

/-- Python `str.lower()` (ASCII case folding). -/
def lowerStr (s : String) : String :=
  String.mk (s.data.map Char.toLower)

/-- Python `str.startswith(pre)`. -/
def pyStartsWith (s pre : String) : Bool :=
  pre.data.isPrefixOf s.data

/-- Python `s[n:]`. -/
def dropStr (s : String) (n : Nat) : String :=
  String.mk (s.data.drop n)

/-- Python `len(s)`. -/
def strLen (s : String) : Nat :=
  s.data.length

/-- Substring containment on character lists: `pat` occurs as a contiguous
run of `l`. -/
def infixOfL (pat : List Char) : List Char → Bool
  | [] => pat.isPrefixOf []
  | c :: t => pat.isPrefixOf (c :: t) || infixOfL pat t

/-- Python `pat in s` (substring containment). -/
def containsSub (s pat : String) : Bool :=
  infixOfL pat.data s.data

/-- `posixpath`: split a path on `/` (same as Python `str.split("/")`). -/
def splitSlash : List Char → List (List Char)
  | [] => [[]]
  | c :: rest =>
    if c = '/' then [] :: splitSlash rest
    else
      match splitSlash rest with
      | [] => [[c]]
      | h :: t => (c :: h) :: t

/-- `posixpath`: join components with `/` (same as Python `"/".join`). -/
def joinSlash : List (List Char) → List Char
  | [] => []
  | [x] => x
  | x :: y :: t => x ++ '/' :: joinSlash (y :: t)

/-- `posixpath.normpath` on a character list, following CPython's algorithm:
count the initial slashes (with the POSIX `//` special case), drop empty and
`.` components, resolve `..` against the stack unless at the start of a
relative path or stacked on another `..`, and return `.` for an empty result. -/
def normpathL (l : List Char) : List Char :=
  if l = [] then ['.']
  else
    let islashes : Nat :=
      if l.take 1 = ['/'] then
        (if l.take 2 = ['/', '/'] ∧ l.take 3 ≠ ['/', '/', '/'] then 2 else 1)
      else 0
    let comps := splitSlash l
    let newComps := comps.foldl (fun acc comp =>
      if comp = [] ∨ comp = ['.'] then acc
      else if comp ≠ ['.', '.'] ∨ (islashes = 0 ∧ acc = []) ∨ acc.getLast? = some ['.', '.'] then
        acc ++ [comp]
      else acc.dropLast) []
    let joined := List.replicate islashes '/' ++ joinSlash newComps
    if joined = [] then ['.'] else joined

/-- `posixpath.normpath` at the `String` level. -/
def normpathStr (s : String) : String :=
  String.mk (normpathL s.data)

/-! ## rules_sensitive.py -/

/-- `rules_sensitive._REASON_SENSITIVE_READ`. -/
def _REASON_SENSITIVE_READ : String :=
  "Reading sensitive files is not allowed. This path may contain credentials or API keys."

/-- `rules_sensitive._SENSITIVE_DIRS` (anything inside is blocked). -/
def _SENSITIVE_DIRS : List String :=
  [".ssh", ".config/gh", ".gemini", ".config/opencode", ".cursor", ".codex"]

/-- `rules_sensitive._SENSITIVE_FILES` (exact match after the home prefix). -/
def _SENSITIVE_FILES : List String :=
  [".api_keys", ".gitconfig", ".claude/.credentials.json", ".claude/.claude.json"]

/-- `rules_sensitive._READ_COMMANDS` (commands that read file contents). -/
def _READ_COMMANDS : List String :=
  ["cat", "less", "more", "head", "tail", "bat", "batcat", "view",
   "strings", "xxd", "hexdump", "od", "tac", "nl"]

/-- Flags of read commands that consume a following value argument
(`rules_sensitive._extract_file_targets`, `flags_with_value`). -/
def readFlagsWithValue : List String :=
  ["-n", "-c", "-q", "--bytes", "--lines"]

/-- Loop body of `rules_sensitive._extract_file_targets`: walk the argument
tokens carrying the `after_double_dash` and `skip_next` flags. -/
def extractTargetsGo : List String → Bool → Bool → List String
  | [], _, _ => []
  | tok :: tl, afterDD, skip =>
    if skip then extractTargetsGo tl afterDD false
    else if afterDD then tok :: extractTargetsGo tl afterDD false
    else if tok = "--" then extractTargetsGo tl true false
    else if pyStartsWith tok "-" ∧ tok ≠ "-" then
      (if tok ∈ readFlagsWithValue then extractTargetsGo tl afterDD true
       else extractTargetsGo tl afterDD false)
    else tok :: extractTargetsGo tl afterDD false

/-- `rules_sensitive._extract_file_targets`: file path arguments of a read
command, skipping flags (everything after a literal `--` is a path). -/
def _extract_file_targets (tokens : List String) : List String :=
  extractTargetsGo (tokens.drop 1) false false

/-- `rules_sensitive._normalize_home_path` on the underlying character list:
collapse a `~/`, `$HOME/`, `${HOME}/` or `/home/<user>/` prefix to a
home-relative normalized path, `none` when the path is not under home. -/
def normHomeAux (l : List Char) : Option String :=
  match l with
  | ['~'] => some ""
  | '~' :: '/' :: rest => some (String.mk (normpathL rest))
  | ['$', 'H', 'O', 'M', 'E'] => some ""
  | ['$', '{', 'H', 'O', 'M', 'E', '}'] => some ""
  | '$' :: 'H' :: 'O' :: 'M' :: 'E' :: '/' :: rest => some (String.mk (normpathL rest))
  | '$' :: '{' :: 'H' :: 'O' :: 'M' :: 'E' :: '}' :: '/' :: rest =>
    some (String.mk (normpathL rest))
  | '/' :: 'h' :: 'o' :: 'm' :: 'e' :: '/' :: rest =>
    let parts := splitSlash ('/' :: 'h' :: 'o' :: 'm' :: 'e' :: '/' :: rest)
    if 3 ≤ parts.length then
      let r := joinSlash (parts.drop 3)
      if r = [] then some "" else some (String.mk (normpathL r))
    else none
  | _ => none

/-- `rules_sensitive._normalize_home_path`. -/
def _normalize_home_path (path : String) : Option String :=
  normHomeAux path.data

/-- `rules_sensitive._is_sensitive_path`: the normalized home-relative path
is an exact sensitive file, or equals / lies under a sensitive directory. -/
def _is_sensitive_path (path : String) : Bool :=
  match _normalize_home_path path with
  | none => false
  | some normalized =>
    decide (normalized ∈ _SENSITIVE_FILES) ||
      decide (∃ d ∈ _SENSITIVE_DIRS,
        normalized = d ∨ pyStartsWith normalized (d ++ "/") = true)

/-- `rules_sensitive._analyze_sensitive_read`. -/
def _analyze_sensitive_read (tokens : List String) : Option String :=
  match tokens with
  | [] => none
  | c0 :: _ =>
    if lowerStr c0 ∈ _READ_COMMANDS then
      (if (_extract_file_targets tokens).any _is_sensitive_path then
        some _REASON_SENSITIVE_READ
       else none)
    else none

/-! ## shell.py (absent from the source tree) : `_short_opts` -/

/-- Modelled from the spec: `shell.py` is not in the source tree; its
`_short_opts` is used by the git engine for combined short options
(section 4.5: "deny if force flag present (`-f`/`--force`, including
combined short opts like `-nf`,`-fd`,`-xf`)", "deny on `-d`/`-D`",
"including attached-value short forms").  It collects the letters of every
token shaped like `-abc` (a single dash followed by alphabetic letters),
preserving case. -/
def _short_opts (tokens : List String) : List Char :=
  tokens.foldr (fun t acc =>
    if pyStartsWith t "-" ∧ ¬ pyStartsWith t "--" ∧ 1 < strLen t ∧
        (dropStr t 1).data.all Char.isAlpha then
      (dropStr t 1).data ++ acc
    else acc) []

/-! ## rules_git.py -/

/-- `rules_git._REASON_GIT_CHECKOUT_DOUBLE_DASH`. -/
def _REASON_GIT_CHECKOUT_DOUBLE_DASH : String :=
  "git checkout -- discards uncommitted changes permanently. Use \x27git stash\x27 first."

/-- `rules_git._REASON_GIT_CHECKOUT_REF_DOUBLE_DASH`. -/
def _REASON_GIT_CHECKOUT_REF_DOUBLE_DASH : String :=
  "git checkout <ref> -- <path> overwrites working tree. Use \x27git stash\x27 first."

/-- `rules_git._REASON_GIT_RESTORE`. -/
def _REASON_GIT_RESTORE : String :=
  "git restore discards uncommitted changes. Use \x27git stash\x27 or \x27git diff\x27 first."

/-- `rules_git._REASON_GIT_RESTORE_WORKTREE`. -/
def _REASON_GIT_RESTORE_WORKTREE : String :=
  "git restore --worktree discards uncommitted changes permanently."

/-- `rules_git._REASON_GIT_RESET_HARD`. -/
def _REASON_GIT_RESET_HARD : String :=
  "git reset --hard destroys uncommitted changes. Use \x27git stash\x27 first."

/-- `rules_git._REASON_GIT_RESET_MERGE`. -/
def _REASON_GIT_RESET_MERGE : String :=
  "git reset --merge can lose uncommitted changes."

/-- `rules_git._REASON_GIT_CLEAN_FORCE`. -/
def _REASON_GIT_CLEAN_FORCE : String :=
  "git clean -f removes untracked files permanently. Review with \x27git clean -n\x27 first."

/-- `rules_git._REASON_GIT_PUSH_FORCE`. -/
def _REASON_GIT_PUSH_FORCE : String :=
  "Force push can destroy remote history. Use --force-with-lease if necessary."

/-- `rules_git._REASON_GIT_BRANCH_DELETE_FORCE` (kept for completeness). -/
def _REASON_GIT_BRANCH_DELETE_FORCE : String :=
  "git branch -D force-deletes without merge check. Use -d for safety."

/-- `rules_git._REASON_GIT_STASH_DROP`. -/
def _REASON_GIT_STASH_DROP : String :=
  "git stash drop permanently deletes stashed changes. List stashes first with \x27git stash list\x27."

/-- `rules_git._REASON_GIT_STASH_CLEAR`. -/
def _REASON_GIT_STASH_CLEAR : String :=
  "git stash clear permanently deletes ALL stashed changes."

/-- `rules_git._REASON_GIT_CHECKOUT_BRANCH`. -/
def _REASON_GIT_CHECKOUT_BRANCH : String :=
  "git checkout <branch> switches branches. Branch switching is not allowed."

/-- `rules_git._REASON_GIT_CHECKOUT_CREATE`. -/
def _REASON_GIT_CHECKOUT_CREATE : String :=
  "git checkout -b creates a new branch. Branch creation is not allowed."

/-- `rules_git._REASON_GIT_SWITCH`. -/
def _REASON_GIT_SWITCH : String :=
  "git switch changes branches. Branch switching is not allowed."

/-- `rules_git._REASON_GIT_SWITCH_CREATE`. -/
def _REASON_GIT_SWITCH_CREATE : String :=
  "git switch -c creates a new branch. Branch creation is not allowed."

/-- `rules_git._REASON_GIT_BRANCH_CREATE`. -/
def _REASON_GIT_BRANCH_CREATE : String :=
  "git branch <name> creates a new branch. Branch creation is not allowed."

/-- `rules_git._REASON_GIT_BRANCH_DELETE`. -/
def _REASON_GIT_BRANCH_DELETE : String :=
  "git branch -d deletes a branch. Branch deletion is not allowed."

/-- `rules_git._REASON_GIT_REBASE`. -/
def _REASON_GIT_REBASE : String :=
  "git rebase rewrites commit history. Rebase is not allowed."

/-- `rules_git._REASON_GIT_COMMIT_AMEND`. -/
def _REASON_GIT_COMMIT_AMEND : String :=
  "git commit --amend rewrites commit history. Amend is not allowed."

/-- `rules_git._REASON_GIT_TAG_DELETE`. -/
def _REASON_GIT_TAG_DELETE : String :=
  "git tag -d deletes a tag. Tag deletion is not allowed."

/-- Git global options that take a separate value argument
(`_git_subcommand_and_rest`, `opts_with_value`). -/
def gitOptsWithValue : List String :=
  ["-c", "-C", "--exec-path", "--git-dir", "--namespace", "--super-prefix", "--work-tree"]

/-- Git global options that take no value (`_git_subcommand_and_rest`,
`opts_no_value`). -/
def gitOptsNoValue : List String :=
  ["-p", "-P", "-h", "--help", "--no-pager", "--paginate", "--version", "--bare",
   "--no-replace-objects", "--literal-pathspecs", "--noglob-pathspecs", "--icase-pathspecs"]

/-- Scanning loop of `rules_git._git_subcommand_and_rest`, walking the tokens
after `git`: `--` makes the next token the subcommand, a non-option token is
the subcommand, value-taking options skip their argument, everything else
(long options with or without `=`, attached-value short forms like `-Crepo`
or `-cname=value`, unknown options) is skipped. -/
def gitScan : List String → Option String × List String
  | [] => (none, [])
  | tok :: rest =>
    if tok = "--" then
      match rest with
      | [] => (none, [])
      | sub :: r => (some sub, r)
    else if ¬ pyStartsWith tok "-" ∨ tok = "-" then (some tok, rest)
    else if tok ∈ gitOptsNoValue then gitScan rest
    else if tok ∈ gitOptsWithValue then
      match rest with
      | [] => (none, [])
      | _ :: rest2 => gitScan rest2
    else gitScan rest

/-- `rules_git._git_subcommand_and_rest`. -/
def _git_subcommand_and_rest (tokens : List String) : Option String × List String :=
  match tokens with
  | [] => (none, [])
  | t :: rest => if lowerStr t = "git" then gitScan rest else (none, [])

/-- The per-subcommand policy chain of `rules_git._analyze_git`, applied to
the lower-cased subcommand and the raw tokens following it. -/
def gitRule (sub : String) (rest : List String) : Option String :=
  let rest_lower := rest.map lowerStr
  let short := _short_opts rest
  if sub = "checkout" then
    if "--" ∈ rest then
      (if rest.indexOf "--" = 0 then some _REASON_GIT_CHECKOUT_DOUBLE_DASH
       else some _REASON_GIT_CHECKOUT_REF_DOUBLE_DASH)
    else if "-b" ∈ rest_lower ∨ "--orphan" ∈ rest_lower then some _REASON_GIT_CHECKOUT_CREATE
    else if rest.filter (fun t => !(pyStartsWith t "-") || t == "-") ≠ [] then
      some _REASON_GIT_CHECKOUT_BRANCH
    else none
  else if sub = "switch" then
    if "-h" ∈ rest_lower ∨ "--help" ∈ rest_lower then none
    else if "-c" ∈ rest_lower ∨ "--create" ∈ rest_lower then some _REASON_GIT_SWITCH_CREATE
    else some _REASON_GIT_SWITCH
  else if sub = "restore" then
    if "-h" ∈ rest_lower ∨ "--help" ∈ rest_lower ∨ "--version" ∈ rest_lower then none
    else if "--worktree" ∈ rest_lower then some _REASON_GIT_RESTORE_WORKTREE
    else if "--staged" ∈ rest_lower then none
    else some _REASON_GIT_RESTORE
  else if sub = "reset" then
    if "--hard" ∈ rest_lower then some _REASON_GIT_RESET_HARD
    else if "--merge" ∈ rest_lower then some _REASON_GIT_RESET_MERGE
    else none
  else if sub = "clean" then
    if "--force" ∈ rest_lower ∨ 'f' ∈ short then some _REASON_GIT_CLEAN_FORCE
    else none
  else if sub = "push" then
    if ("--force" ∈ rest_lower ∨ 'f' ∈ short) ∧
        ¬ (∃ t ∈ rest_lower, pyStartsWith t "--force-with-lease" = true) then
      some _REASON_GIT_PUSH_FORCE
    else if "--force" ∈ rest_lower ∧ (∃ t ∈ rest_lower, pyStartsWith t "--force-with-lease" = true) then
      some _REASON_GIT_PUSH_FORCE
    else if 'f' ∈ short ∧ (∃ t ∈ rest_lower, pyStartsWith t "--force-with-lease" = true) then
      some _REASON_GIT_PUSH_FORCE
    else none
  else if sub = "branch" then
    if "-D" ∈ rest ∨ 'D' ∈ short ∨ "-d" ∈ rest ∨ 'd' ∈ short then
      some _REASON_GIT_BRANCH_DELETE
    else if rest = [] ∨ ∀ t ∈ rest, pyStartsWith t "-" = true then none
    else some _REASON_GIT_BRANCH_CREATE
  else if sub = "stash" then
    match rest_lower with
    | [] => none
    | r0 :: _ =>
      if r0 = "drop" then some _REASON_GIT_STASH_DROP
      else if r0 = "clear" then some _REASON_GIT_STASH_CLEAR
      else none
  else if sub = "rebase" then
    if "-h" ∈ rest_lower ∨ "--help" ∈ rest_lower then none
    else some _REASON_GIT_REBASE
  else if sub = "commit" then
    if "--amend" ∈ rest_lower then some _REASON_GIT_COMMIT_AMEND else none
  else if sub = "tag" then
    if "-d" ∈ rest_lower ∨ "--delete" ∈ rest_lower ∨ 'd' ∈ short then
      some _REASON_GIT_TAG_DELETE
    else none
  else none

/-- `rules_git._analyze_git`: locate the subcommand past git's global options,
then apply the per-subcommand policy (an empty subcommand string is falsy in
the source and allows). -/
def _analyze_git (tokens : List String) : Option String :=
  match _git_subcommand_and_rest tokens with
  | (none, _) => none
  | (some sub, rest) => if sub = "" then none else gitRule (lowerStr sub) rest

/-! ## hook.py : textual heuristics (`_dangerous_in_text`)

The two regular expressions of `_dangerous_in_text` and the `\bTMPDIR=`
test are realised as explicit matchers with the usual existential search
semantics of `re.search` / `re.match`. -/

/-- Zero-width `\b` after a word character: the next character is not a
word character (or the text ends). -/
def matchWordEnd : List Char → Bool
  | [] => true
  | c :: _ => ¬ isWordChar c

/-- Character class `[^\n;|&]` (inside one statement). -/
def notBreak (c : Char) : Bool :=
  ¬ (c = '\n' ∨ c = ';' ∨ c = '|' ∨ c = '&')

/-- Character class `[^\s'";|&]` (path characters in the `rm` pattern). -/
def pathChar (c : Char) : Bool :=
  ¬ (isPySpace c ∨ c = '\x27' ∨ c = '\x22' ∨ c = ';' ∨ c = '|' ∨ c = '&')

/-- ASCII `[a-z]`. -/
def isLowerAlpha (c : Char) : Bool :=
  'a' ≤ c ∧ c ≤ 'z'

/-- Matcher for `[a-z]*a[a-z]*b\b`: scan lowercase letters, remembering
whether `a` was seen, and accept at a `b` that has `a` strictly before it
and a word boundary after it. -/
def comboScan (a b : Char) : List Char → Bool → Bool
  | [], _ => false
  | c :: r, seen =>
    isLowerAlpha c ∧ ((c = b ∧ seen ∧ matchWordEnd r) ∨ comboScan a b r (seen ∨ c = a))

/-- Matcher for `(?:[a-z]*r[a-z]*f|[a-z]*f[a-z]*r)\b` (combined short
options holding both `r` and `f`, in either order). -/
def comboRF (l : List Char) : Bool :=
  comboScan 'r' 'f' l false || comboScan 'f' 'r' l false

/-- Matcher for `\s-d\b` (`d` a single option letter); returns the
remainder after the letter on success. -/
def dashOpt (d : Char) : List Char → Option (List Char)
  | s :: '-' :: c :: r => if isPySpace s ∧ c = d ∧ matchWordEnd r then some r else none
  | _ => none

/-- Matcher for `\s--word\b`; returns the remainder after the word. -/
def dashLongOpt (w : List Char) : List Char → Option (List Char)
  | [] => none
  | s :: r =>
    if isPySpace s ∧ ('-' :: '-' :: w).isPrefixOf r ∧ matchWordEnd (r.drop (w.length + 2)) then
      some (r.drop (w.length + 2))
    else none

/-- `[^\n;|&]*` followed by `f`: try `f` at every position reached through
non-break characters. -/
def scanFor (f : List Char → Option (List Char)) : List Char → Bool
  | [] => (f []).isSome
  | c :: r => (f (c :: r)).isSome || (notBreak c ∧ scanFor f r)

/-- The five flag alternatives of the `rm` pattern:
`\s-([a-z]*r[a-z]*f|[a-z]*f[a-z]*r)\b`, `\s-r\b[^\n;|&]*\s-f\b`,
`\s-f\b[^\n;|&]*\s-r\b`, `\s--recursive\b[^\n;|&]*\s--force\b`,
`\s--force\b[^\n;|&]*\s--recursive\b`. -/
def rmFlagAlt (l : List Char) : Bool :=
  (match l with
   | s :: '-' :: rest2 => isPySpace s ∧ comboRF rest2
   | _ => false) ||
  (match dashOpt 'r' l with
   | some r => scanFor (dashOpt 'f') r
   | none => false) ||
  (match dashOpt 'f' l with
   | some r => scanFor (dashOpt 'r') r
   | none => false) ||
  (match dashLongOpt "recursive".data l with
   | some r => scanFor (dashLongOpt "force".data) r
   | none => false) ||
  (match dashLongOpt "force".data l with
   | some r => scanFor (dashLongOpt "recursive".data) r
   | none => false)

/-- `[^\n;|&]*` followed by one of the flag alternatives. -/
def afterRm : List Char → Bool
  | [] => false
  | c :: r => rmFlagAlt (c :: r) || (notBreak c ∧ afterRm r)

/-- `rm\b[^\n;|&]*(flag alternative)` at the head of the list. -/
def rmCore : List Char → Bool
  | 'r' :: 'm' :: rest => matchWordEnd rest ∧ afterRm rest
  | _ => false

/-- Inside `/[^\s'";|&]+/rm...` having consumed at least one path
character: either close the prefix at a `/` followed by `rm`, or consume
another path character. -/
def pathAfterOne : List Char → Bool
  | [] => false
  | c :: r => (c = '/' ∧ rmCore r) || (pathChar c ∧ pathAfterOne r)

/-- `(?:/[^\s'";|&]+/)?rm\b[^\n;|&]*(...)` at the head of the list. -/
def rmStart (l : List Char) : Bool :=
  rmCore l ||
    (match l with
     | '/' :: c :: r2 => pathChar c ∧ pathAfterOne r2
     | _ => false)

/-- `re.search`: try the pattern at every position, carrying the previous
character for lookbehind / word-boundary tests. -/
def searchAt (p : List Char → Bool) (lb : Option Char → Bool) : Option Char → List Char → Bool
  | prev, [] => lb prev ∧ p []
  | prev, c :: r => (lb prev ∧ p (c :: r)) || searchAt p lb (some c) r

/-- Negative lookbehind `(?<![\w/\\])` of the `rm` pattern. -/
def rmLookbehind : Option Char → Bool
  | none => true
  | some c => ¬ (isWordChar c ∨ c = '/' ∨ c = '\x5c')

/-- Word boundary `\b` before a word character: previous character absent
or not a word character. -/
def wordBoundary : Option Char → Bool
  | none => true
  | some c => ¬ isWordChar c

/-- The `rm` heuristic regex of `_dangerous_in_text`:
`(?<![\w/\\])(?:/[^\s'";|&]+/)?rm\b[^\n;|&]*(...)` searched anywhere. -/
def rmDanger (l : List Char) : Bool :=
  searchAt rmStart rmLookbehind none l

/-- `\s+`: one or more whitespace characters, returning the remainder. -/
def spaces1 : List Char → Option (List Char)
  | [] => none
  | c :: r => if isPySpace c then some (r.dropWhile isPySpace) else none

/-- `git\s+push\s+-f\b` at the head of the list. -/
def pushFAt (l : List Char) : Bool :=
  match l with
  | 'g' :: 'i' :: 't' :: r =>
    (match spaces1 r with
     | some r2 =>
       ("push".data).isPrefixOf r2 &&
         (match spaces1 (r2.drop 4) with
          | some r3 => ("-f".data).isPrefixOf r3 && matchWordEnd (r3.drop 2)
          | none => false)
     | none => false)
  | _ => false

/-- `git\s+restore\b` at the head of the list. -/
def restoreAt (l : List Char) : Bool :=
  match l with
  | 'g' :: 'i' :: 't' :: r =>
    (match spaces1 r with
     | some r2 => ("restore".data).isPrefixOf r2 && matchWordEnd (r2.drop 7)
     | none => false)
  | _ => false

/-- `re.search(r"\bgit\s+push\s+-f\b", t)`. -/
def gitPushFSearch (l : List Char) : Bool :=
  searchAt pushFAt wordBoundary none l

/-- `re.search(r"\bgit\s+restore\b", t)`. -/
def gitRestoreSearch (l : List Char) : Bool :=
  searchAt restoreAt wordBoundary none l

/-- `re.search(r"\bTMPDIR=", segment)` (case-sensitive, on the raw
segment). -/
def hasTmpdirAssign (segment : String) : Bool :=
  searchAt (fun l => ("TMPDIR=".data).isPrefixOf l) wordBoundary none segment.data

/-- `hook._dangerous_in_text`: last-resort heuristics over the lower-cased
raw text.  The `git branch -D` test is kept exactly as in the source, where
it can never fire on the lower-cased text. -/
def _dangerous_in_text (text : String) : Option String :=
  let t := lowerStr text
  if rmDanger t.data then
    some "rm -rf is destructive. List files first, then delete individually."
  else if containsSub t "git reset --hard" then some _REASON_GIT_RESET_HARD
  else if containsSub t "git reset --merge" then some _REASON_GIT_RESET_MERGE
  else if containsSub t "git clean -f" ∨ containsSub t "git clean --force" then
    some _REASON_GIT_CLEAN_FORCE
  else if (containsSub t "git push --force" ∨ gitPushFSearch t.data) ∧
      ¬ containsSub t "--force-with-lease" then
    some _REASON_GIT_PUSH_FORCE
  else if containsSub t "git branch -D" ∧ ¬ containsSub t "git branch -d" then
    some _REASON_GIT_BRANCH_DELETE_FORCE
  else if containsSub t "git stash drop" then some _REASON_GIT_STASH_DROP
  else if containsSub t "git stash clear" then some _REASON_GIT_STASH_CLEAR
  else if containsSub t "git checkout --" then some _REASON_GIT_CHECKOUT_DOUBLE_DASH
  else if gitRestoreSearch t.data ∧ ¬ containsSub t "--staged" ∧
      ¬ containsSub t "--help" ∧ ¬ containsSub t "--version" then
    (if containsSub t "--worktree" then some _REASON_GIT_RESTORE_WORKTREE
     else some _REASON_GIT_RESTORE)
  else none

/-! ## shell.py (absent from the source tree) : tokenizer, splitter, wrappers -/

/-- Tokenizer states: outside any quote, inside single quotes, inside
double quotes, after a backslash inside double quotes, after a backslash
outside quotes. -/
inductive LexSt where
  | out | insq | indq | indqEsc | esc
deriving DecidableEq

/-- Modelled from the spec: state machine of `shell._shlex_split`
(section 4.1): single quotes are literal, double quotes have the
restricted escape set (backslash escapes only `"` and `\`), a backslash
outside quotes escapes the next character, and an unbalanced quote or
trailing escape signals failure instead of guessing. -/
def shlexGo : List Char → LexSt → List Char → Bool → List (List Char) → Option (List (List Char))
  | [], st, cur, inWord, acc =>
    if st = LexSt.out then some (acc ++ if inWord then [cur] else []) else none
  | c :: r, st, cur, inWord, acc =>
    match st with
    | LexSt.out =>
      if isPySpace c then
        (if inWord then shlexGo r LexSt.out [] false (acc ++ [cur])
         else shlexGo r LexSt.out [] false acc)
      else if c = '\x27' then shlexGo r LexSt.insq cur true acc
      else if c = '\x22' then shlexGo r LexSt.indq cur true acc
      else if c = '\x5c' then shlexGo r LexSt.esc cur inWord acc
      else shlexGo r LexSt.out (cur ++ [c]) true acc
    | LexSt.esc => shlexGo r LexSt.out (cur ++ [c]) true acc
    | LexSt.insq =>
      if c = '\x27' then shlexGo r LexSt.out cur true acc
      else shlexGo r LexSt.insq (cur ++ [c]) true acc
    | LexSt.indq =>
      if c = '\x22' then shlexGo r LexSt.out cur true acc
      else if c = '\x5c' then shlexGo r LexSt.indqEsc cur true acc
      else shlexGo r LexSt.indq (cur ++ [c]) true acc
    | LexSt.indqEsc =>
      shlexGo r LexSt.indq (cur ++ (if c = '\x22' ∨ c = '\x5c' then [c] else ['\x5c', c])) true acc

/-- Modelled from the spec: `shell._shlex_split` (section 4.1) — quote-aware
word splitting of one segment; `none` on unbalanced quoting. -/
def _shlex_split (s : String) : Option (List String) :=
  (shlexGo s.data LexSt.out [] false []).map (fun ws => ws.map String.mk)

/-- Splitter states: top level, single quote, double quote, backtick, and
the three corresponding after-backslash states. -/
inductive SpSt where
  | top | ssq | sdq | sbq | sesc | sdqEsc | sbqEsc
deriving DecidableEq

/-- Modelled from the spec: scanning loop of `shell._split_shell_commands`
(section 4.2): split on top-level `;`, `&&`, `||`, `|`, newline and `&`,
skipping occurrences inside single/double quotes, backticks and nested
`()`/`{}`/`$()` groups; signal `none` on unterminated grouping so the whole
line becomes one segment. -/
def splitCmdGo : List Char → SpSt → Nat → Nat → List Char → List (List Char) → Option (List (List Char))
  | [], st, pd, bd, cur, acc =>
    if st = SpSt.top ∧ pd = 0 ∧ bd = 0 then some (acc ++ [cur]) else none
  | c :: r, st, pd, bd, cur, acc =>
    match st with
    | SpSt.top =>
      if c = '\x27' then splitCmdGo r SpSt.ssq pd bd (cur ++ [c]) acc
      else if c = '\x22' then splitCmdGo r SpSt.sdq pd bd (cur ++ [c]) acc
      else if c = '\x60' then splitCmdGo r SpSt.sbq pd bd (cur ++ [c]) acc
      else if c = '\x5c' then splitCmdGo r SpSt.sesc pd bd (cur ++ [c]) acc
      else if c = '(' then splitCmdGo r SpSt.top (pd + 1) bd (cur ++ [c]) acc
      else if c = ')' then
        (if pd = 0 then none else splitCmdGo r SpSt.top (pd - 1) bd (cur ++ [c]) acc)
      else if c = '{' then splitCmdGo r SpSt.top pd (bd + 1) (cur ++ [c]) acc
      else if c = '}' then
        (if bd = 0 then none else splitCmdGo r SpSt.top pd (bd - 1) (cur ++ [c]) acc)
      else if (c = ';' ∨ c = '&' ∨ c = '|' ∨ c = '\n') ∧ pd = 0 ∧ bd = 0 then
        splitCmdGo r SpSt.top pd bd [] (acc ++ [cur])
      else splitCmdGo r SpSt.top pd bd (cur ++ [c]) acc
    | SpSt.sesc => splitCmdGo r SpSt.top pd bd (cur ++ [c]) acc
    | SpSt.ssq =>
      if c = '\x27' then splitCmdGo r SpSt.top pd bd (cur ++ [c]) acc
      else splitCmdGo r SpSt.ssq pd bd (cur ++ [c]) acc
    | SpSt.sdq =>
      if c = '\x22' then splitCmdGo r SpSt.top pd bd (cur ++ [c]) acc
      else if c = '\x5c' then splitCmdGo r SpSt.sdqEsc pd bd (cur ++ [c]) acc
      else splitCmdGo r SpSt.sdq pd bd (cur ++ [c]) acc
    | SpSt.sdqEsc => splitCmdGo r SpSt.sdq pd bd (cur ++ [c]) acc
    | SpSt.sbq =>
      if c = '\x60' then splitCmdGo r SpSt.top pd bd (cur ++ [c]) acc
      else if c = '\x5c' then splitCmdGo r SpSt.sbqEsc pd bd (cur ++ [c]) acc
      else splitCmdGo r SpSt.sbq pd bd (cur ++ [c]) acc
    | SpSt.sbqEsc => splitCmdGo r SpSt.sbq pd bd (cur ++ [c]) acc

/-- Modelled from the spec: `shell._split_shell_commands` (section 4.2) —
ordered segments of a command line (trimmed, empty pieces between adjacent
operator characters dropped); the whole line is one segment when the line
cannot be confidently scanned. -/
def _split_shell_commands (command : String) : List String :=
  match splitCmdGo command.data SpSt.top 0 0 [] [] with
  | none => [command]
  | some segs => (segs.map (fun l => String.mk (stripChars l))).filter (fun s => !(s == ""))

/-- A `NAME=value` environment assignment token (name of alphanumeric or
underscore characters, not starting with a digit, followed by `=`). -/
def isEnvAssign (t : String) : Bool :=
  match t.data.takeWhile (fun c => c ≠ '=') with
  | [] => false
  | c0 :: namerest =>
    (c0 :: namerest).length < t.data.length ∧
      (c0 :: namerest).all (fun c => c.isAlphanum ∨ c = '_') ∧ ¬ c0.isDigit

/-- Modelled from the spec: option skipping after an environment-setting or
privilege-elevation wrapper (section 4.3: "including explicit `--`/`-u VAR`
forms"): drop `--` (keeping the remainder), `-u VAR` pairs, other dash
options and `NAME=value` assignments. -/
def stripEnvOpts : List String → List String
  | [] => []
  | t :: rest =>
    if t = "--" then rest
    else if t = "-u" then
      (match rest with
       | [] => []
       | _ :: r2 => stripEnvOpts r2)
    else if pyStartsWith t "-" then stripEnvOpts rest
    else if isEnvAssign t then stripEnvOpts rest
    else t :: rest

/-- Modelled from the spec: loop of `shell._strip_wrappers` (section 4.3):
repeatedly strip privilege-elevation wrappers (`sudo`, `doas`),
environment-setting wrappers (`env` with its option forms, bare
`NAME=value` assignments) and pass-through wrappers (`command`, `builtin`,
`nice`, `time`, `nohup`), bounded by the token list length. -/
def stripWrappersGo : Nat → List String → List String
  | 0, l => l
  | fuel + 1, l =>
    match l with
    | [] => []
    | t :: rest =>
      let tl := lowerStr t
      if tl = "sudo" ∨ tl = "doas" ∨ tl = "env" then stripWrappersGo fuel (stripEnvOpts rest)
      else if tl = "command" ∨ tl = "builtin" ∨ tl = "nice" ∨ tl = "time" ∨ tl = "nohup" then
        stripWrappersGo fuel rest
      else if isEnvAssign t then stripWrappersGo fuel rest
      else l

/-- Modelled from the spec: `shell._strip_wrappers` (section 4.3). -/
def _strip_wrappers (tokens : List String) : List String :=
  stripWrappersGo tokens.length tokens

/-! ## hook.py : token helpers -/

/-- `hook._MAX_RECURSION_DEPTH`. -/
def _MAX_RECURSION_DEPTH : Nat := 5

/-- `hook._STRICT_SUFFIX`. -/
def _STRICT_SUFFIX : String :=
  " [strict mode - disable with: unset SAFETY_NET_STRICT]"

/-- The `while tok.startswith("$(")` loop of `hook._normalize_cmd_token`. -/
def dropDollarParen : List Char → List Char
  | '$' :: '(' :: rest => dropDollarParen rest
  | l => l

/-- `hook._normalize_cmd_token`: strip and lower-case the token, peel `$(`
prefixes, strip wrapper punctuation from both ends, and take the basename. -/
def _normalize_cmd_token (token : String) : String :=
  let l0 := stripChars token.data
  let l1 := l0.map Char.toLower
  let l2 := dropDollarParen l1
  let l3 := l2.dropWhile (fun c => c = '\x5c' ∨ c = '\x60' ∨ c = '(' ∨ c = '{' ∨ c = '[')
  let l4 := (l3.reverse.dropWhile (fun c => c = '\x60' ∨ c = ')' ∨ c = '}' ∨ c = ']' ∨ c = ';')).reverse
  let l5 := (l4.reverse.takeWhile (fun c => c ≠ '/')).reverse
  String.mk l5

/-- Shell heads that trigger the recursive unwrap (`hook._analyze_segment`). -/
def shellHeads : List String := ["bash", "sh", "zsh", "dash", "ksh"]

/-- Interpreter heads whose one-liners are scanned textually
(`hook._analyze_segment`). -/
def interpHeads : List String := ["python", "python3", "node", "ruby", "perl"]

/-- Loop of `hook._extract_dash_c_arg` over the tokens after the head:
`--` stops the scan, `-c` and combined short options from `{c,l,i,s}`
containing `c` take the next token as the inline script. -/
def extractDashCGo : List String → Option String
  | [] => none
  | tok :: tl =>
    if tok = "--" then none
    else if tok = "-c" then tl.head?
    else if pyStartsWith tok "-" ∧ 1 < strLen tok ∧ (dropStr tok 1).data.all Char.isAlpha ∧
        'c' ∈ (dropStr tok 1).data ∧
        (dropStr tok 1).data.all (fun c => c = 'c' ∨ c = 'l' ∨ c = 'i' ∨ c = 's') then
      tl.head?
    else extractDashCGo tl

/-- `hook._extract_dash_c_arg`. -/
def _extract_dash_c_arg (tokens : List String) : Option String :=
  extractDashCGo (tokens.drop 1)

/-- Loop of `hook._has_shell_dash_c` (same option recognition, `--` breaks). -/
def hasShellDashCGo : List String → Bool
  | [] => false
  | tok :: tl =>
    if tok = "--" then false
    else if tok = "-c" then true
    else if pyStartsWith tok "-" ∧ 1 < strLen tok ∧ (dropStr tok 1).data.all Char.isAlpha ∧
        'c' ∈ (dropStr tok 1).data ∧
        (dropStr tok 1).data.all (fun c => c = 'c' ∨ c = 'l' ∨ c = 'i' ∨ c = 's') then
      true
    else hasShellDashCGo tl

/-- `hook._has_shell_dash_c`. -/
def _has_shell_dash_c (tokens : List String) : Bool :=
  hasShellDashCGo (tokens.drop 1)

/-- Loop of `hook._extract_pythonish_code_arg`: `--` stops the scan, `-c`
or `-e` takes the next token as the inline code. -/
def extractPythonishGo : List String → Option String
  | [] => none
  | tok :: tl =>
    if tok = "--" then none
    else if tok = "-c" ∨ tok = "-e" then tl.head?
    else extractPythonishGo tl

/-- `hook._extract_pythonish_code_arg`. -/
def _extract_pythonish_code_arg (tokens : List String) : Option String :=
  extractPythonishGo (tokens.drop 1)

/-! ## rules_rm.py (absent from the source tree) and the analysis pipeline -/

/-- Modelled from the spec: safe-zone test of the delete engine
(section 4.5): system temp directories, `$TMPDIR`-rooted paths when the
segment does not redefine `TMPDIR=` itself, and relative paths when the
caller-known cwd is itself inside a temp location; strict mode drops the
cwd-based zone. -/
def rmSafeTarget (allow_tmpdir_var : Bool) (cwd : Option String) (strict : Bool) (p : String) : Bool :=
  pyStartsWith p "/tmp/" || pyStartsWith p "/var/tmp/" ||
    (allow_tmpdir_var && (pyStartsWith p "$TMPDIR/" || pyStartsWith p "${TMPDIR}/")) ||
    (!strict && !(pyStartsWith p "/") &&
      (match cwd with
       | some c =>
         pyStartsWith c "/tmp/" || c == "/tmp" || pyStartsWith c "/var/tmp/" || c == "/var/tmp"
       | none => false))

/-- Modelled from the spec: `rules_rm._analyze_rm` (section 4.5) — deny a
recursive (`-r`/`-R`/`--recursive`) plus force (`-f`/`--force`) delete, in
any order including combined short forms, unless every target lies in the
safe zone; an unknown cwd or no explicit target is conservatively denied. -/
def _analyze_rm (tokens : List String) (allow_tmpdir_var : Bool) (cwd : Option String)
    (strict : Bool) : Option String :=
  let args := tokens.drop 1
  let short := _short_opts args
  let recursive := "--recursive" ∈ args.map lowerStr ∨ 'r' ∈ short ∨ 'R' ∈ short
  let force := "--force" ∈ args.map lowerStr ∨ 'f' ∈ short
  if recursive ∧ force then
    let targets := args.filter (fun t => !(pyStartsWith t "-") || t == "-")
    if targets ≠ [] ∧ targets.all (fun t => rmSafeTarget allow_tmpdir_var cwd strict t) = true then
      none
    else some "rm -rf is destructive. List files first, then delete individually."
  else none

/-- Embedded-command scan of `hook._analyze_segment`: every non-head token
is re-normalized as a candidate command head; `rm` and `git` dispatch their
rule engines on the remaining tokens, and the sensitive-read engine runs
with the normalized token as the candidate read command. -/
def embeddedScan : List String → Bool → Option String → Bool → Option String
  | [], _, _, _ => none
  | tok :: tl, allow, cwd, strict =>
    let cmd := _normalize_cmd_token tok
    match (if cmd = "rm" then _analyze_rm ("rm" :: tl) allow cwd strict else none) with
    | some r => some r
    | none =>
      match (if cmd = "git" then _analyze_git ("git" :: tl) else none) with
      | some r => some r
      | none =>
        match _analyze_sensitive_read (cmd :: tl) with
        | some r => some r
        | none => embeddedScan tl allow cwd strict

/-- Tail of `hook._analyze_segment` after the shell and interpreter
branches: the busybox applet, `git` and `rm` dispatches (each of which
returns unconditionally in the source), then the sensitive-read engine,
the embedded-command scan, and the textual fallback on the raw segment. -/
def restStep (segment : String) (tokens : List String) (head : String) (cwd : Option String)
    (strict : Bool) : Option (String × String) :=
  let allow_tmpdir_var := ! hasTmpdirAssign segment
  if head = "busybox" ∧ 2 ≤ tokens.length ∧ _normalize_cmd_token (tokens.getD 1 "") = "rm" then
    (match _analyze_rm ("rm" :: tokens.drop 2) allow_tmpdir_var cwd strict with
     | some r => some (segment, r)
     | none => none)
  else if head = "git" then
    (match _analyze_git ("git" :: tokens.drop 1) with
     | some r => some (segment, r)
     | none => none)
  else if head = "rm" then
    (match _analyze_rm ("rm" :: tokens.drop 1) allow_tmpdir_var cwd strict with
     | some r => some (segment, r)
     | none => none)
  else
    match _analyze_sensitive_read tokens with
    | some reason => some (segment, reason)
    | none =>
      match embeddedScan (tokens.drop 1) allow_tmpdir_var cwd strict with
      | some reason => some (segment, reason)
      | none =>
        match _dangerous_in_text segment with
        | some reason => some (segment, reason)
        | none => none

/-- Interpreter branch of `hook._analyze_segment`: a `python`/`python3`/
`node`/`ruby`/`perl` head with an extractable `-c`/`-e` inline-code
argument is scanned by the textual heuristic only; in strict mode an
unflagged one-liner is itself denied; otherwise analysis falls through to
the remaining checks. -/
def interpStep (segment : String) (tokens : List String) (head : String) (cwd : Option String)
    (strict : Bool) : Option (String × String) :=
  if head ∈ interpHeads then
    match _extract_pythonish_code_arg tokens with
    | some code =>
      (match _dangerous_in_text code with
       | some reason => some (segment, reason)
       | none =>
         if strict = true then
           some (segment, "Cannot safely analyze interpreter one-liners." ++ _STRICT_SUFFIX)
         else restStep segment tokens head cwd strict)
    | none => restStep segment tokens head cwd strict
  else restStep segment tokens head cwd strict

/-- Body of `hook._analyze_segment`, abstracted over the recursive call
`recurse cmdStr cwd strict` that re-runs the whole command analysis on an
inline `-c` script at `depth + 1`.  Tokenization failure goes to the
strict-mode deny or the textual fallback; the depth ceiling is checked
before `recurse` is ever consulted. -/
def segmentBody (recurse : String → Option String → Bool → Option (String × String))
    (segment : String) (depth : Nat) (cwd : Option String) (strict : Bool) :
    Option (String × String) :=
  match _shlex_split segment with
  | none =>
    if strict = true then
      some (segment, "Unable to parse shell command safely." ++ _STRICT_SUFFIX)
    else
      (match _dangerous_in_text segment with
       | some reason => some (segment, reason)
       | none => none)
  | some tokens0 =>
    if tokens0 = [] then none
    else
      match _strip_wrappers tokens0 with
      | [] => none
      | t0 :: tr =>
        let tokens := t0 :: tr
        let head := _normalize_cmd_token t0
        if head ∈ shellHeads then
          match _extract_dash_c_arg tokens with
          | some cmdStr =>
            if _MAX_RECURSION_DEPTH ≤ depth then
              some (segment, "Command analysis recursion limit reached.")
            else
              (match recurse cmdStr cwd strict with
               | some a => some a
               | none => interpStep segment tokens head cwd strict)
          | none =>
            if strict = true ∧ _has_shell_dash_c tokens = true then
              some (segment, "Unable to parse shell -c wrapper safely." ++ _STRICT_SUFFIX)
            else interpStep segment tokens head cwd strict
        else interpStep segment tokens head cwd strict

/-- The `^\s*(?:\$\(\s*)?[\(\{]*\s*(?:command\s+|builtin\s+)?(?:cd|pushd|popd)(?:\s|$)`
fallback of `hook._segment_changes_cwd`: one of the three builtin names
followed by whitespace or the end. -/
def cwdKeywordAt (l : List Char) : Bool :=
  (("cd".data).isPrefixOf l &&
    (match l.drop 2 with
     | [] => true
     | c :: _ => isPySpace c)) ||
  (("pushd".data).isPrefixOf l &&
    (match l.drop 5 with
     | [] => true
     | c :: _ => isPySpace c)) ||
  (("popd".data).isPrefixOf l &&
    (match l.drop 4 with
     | [] => true
     | c :: _ => isPySpace c))

/-- Optional `command\s+` / `builtin\s+` prefix before the builtin name. -/
def cwdAfterKw (l : List Char) : Bool :=
  cwdKeywordAt l ||
    (("command".data).isPrefixOf l &&
      (match spaces1 (l.drop 7) with
       | some r => cwdKeywordAt r
       | none => false)) ||
    (("builtin".data).isPrefixOf l &&
      (match spaces1 (l.drop 7) with
       | some r => cwdKeywordAt r
       | none => false))

/-- The anchored, case-insensitive regex fallback of
`hook._segment_changes_cwd` (the pattern is matched against the lower-cased
segment; the optional `$(` group is tried both ways). -/
def cwdRegexMatch (segment : String) : Bool :=
  let l := (lowerStr segment).data.dropWhile isPySpace
  let starts : List (List Char) :=
    (match l with
     | '$' :: '(' :: r => [r.dropWhile isPySpace]
     | _ => []) ++ [l]
  starts.any (fun l2 =>
    cwdAfterKw ((l2.dropWhile (fun c => c = '(' ∨ c = '{')).dropWhile isPySpace))

/-- The `while tokens and tokens[0] in {"{", "(", "$("}` loop of
`hook._segment_changes_cwd`. -/
def dropGroupers : List String → List String
  | [] => []
  | t :: rest => if t = "\x7b" ∨ t = "(" ∨ t = "$(" then dropGroupers rest else t :: rest

/-- `hook._segment_changes_cwd`: tokenize, drop grouping tokens, strip
wrappers and a leading `builtin`, then test the normalized head against
`cd`/`pushd`/`popd`; fall back to the anchored regex when tokenization
fails or leaves nothing. -/
def _segment_changes_cwd (segment : String) : Bool :=
  match _shlex_split segment with
  | some tokens0 =>
    let t1 := dropGroupers tokens0
    let t2 := _strip_wrappers t1
    let t3 := match t2 with
      | t :: rest => if lowerStr t = "builtin" then rest else t :: rest
      | [] => []
    (match t3 with
     | t :: _ => decide (_normalize_cmd_token t ∈ ["cd", "pushd", "popd"])
     | [] => cwdRegexMatch segment)
  | none => cwdRegexMatch segment

/-- The cwd update of `hook._analyze_command`: a known cwd becomes unknown
after a segment whose head is a directory-changing builtin. -/
def nextCwd (cwd : Option String) (segment : String) : Option String :=
  if cwd.isSome ∧ _segment_changes_cwd segment = true then none else cwd

/-- The segment loop of `hook._analyze_command`: analyze segments in order,
return the first Deny, and thread the inferred cwd through `nextCwd`. -/
def segLoopF (g : String → Option String → Option (String × String)) :
    List String → Option String → Option (String × String)
  | [], _ => none
  | s :: rest, cwd =>
    match g s cwd with
    | some a => some a
    | none => segLoopF g rest (nextCwd cwd s)

/-- `hook._analyze_segment`, with the mutual recursion between
`_analyze_segment` and `_analyze_command` unrolled on a structural fuel so
that every application reduces by kernel computation.  The recursion in
the source is re-entered only under `depth < _MAX_RECURSION_DEPTH` and
always at `depth + 1`, so a chain starting anywhere uses at most
`_MAX_RECURSION_DEPTH + 1` frames and the fuel-exhausted branch of
`analyzeSegmentF (_MAX_RECURSION_DEPTH + 1)` is unreachable. -/
def analyzeSegmentF (f : Nat) :
    String → Nat → Option String → Bool → Option (String × String) :=
  Nat.rec (motive := fun _ => String → Nat → Option String → Bool → Option (String × String))
    (fun _ _ _ _ => none)
    (fun _ ih segment depth cwd strict =>
      segmentBody
        (fun cmdStr c s =>
          segLoopF (fun seg c2 => ih seg (depth + 1) c2 s) (_split_shell_commands cmdStr) c)
        segment depth cwd strict)
    f

/-- `hook._analyze_segment`. -/
def _analyze_segment (segment : String) (depth : Nat) (cwd : Option String) (strict : Bool) :
    Option (String × String) :=
  analyzeSegmentF (_MAX_RECURSION_DEPTH + 1) segment depth cwd strict

/-- `hook._analyze_command`: split the command line into segments and run
the segment loop. -/
def _analyze_command (command : String) (depth : Nat) (cwd : Option String) (strict : Bool) :
    Option (String × String) :=
  segLoopF (fun seg c => _analyze_segment seg depth c strict) (_split_shell_commands command) cwd

/-- The sequence of inferred working directories used for the successive
segments of one top-level analysis (the state threaded by
`hook._analyze_command`). -/
def threadCwds : List String → Option String → List (Option String)
  | [], _ => []
  | s :: rest, cwd => cwd :: threadCwds rest (nextCwd cwd s)

/-! ## hook.py : `main` (the decision operation) -/

/-- The JSON-ish values relevant to `hook.main`: strings, objects, and
everything else (numbers, arrays, booleans, null), which `main` never
inspects beyond `isinstance` checks. -/
inductive PyVal where
  | str (s : String)
  | dict (fields : List (String × PyVal))
  | other

/-- Python `dict.get`: the value at a key, `none` when absent (objects are
modelled as association lists, first binding wins). -/
def lookupField : List (String × PyVal) → String → Option PyVal
  | [], _ => none
  | (k, v) :: rest, key => if k = key then some v else lookupField rest key

/-- The verdict of the decision operation. -/
inductive Decision where
  | allow
  | deny (reason : String)
deriving DecidableEq

/-- The cwd extraction of `hook.main`: `cwd_val.strip()` when it is a
string, with an empty result mapped to `None`. -/
def cwdOf (fields : List (String × PyVal)) : Option String :=
  match lookupField fields "cwd" with
  | some (PyVal.str c) => if pyStrip c = "" then none else some (pyStrip c)
  | _ => none

/-- `hook.main` after the `tool_input` checks: a missing, non-string or
blank `command` allows; otherwise the command line is analyzed. -/
def commandDecision (strict : Bool) (fields tfields : List (String × PyVal)) : Decision :=
  match lookupField tfields "command" with
  | some (PyVal.str command) =>
    if pyStrip command = "" then Decision.allow
    else
      (match _analyze_command command 0 (cwdOf fields) strict with
       | some (_seg, reason) => Decision.deny reason
       | none => Decision.allow)
  | _ => Decision.allow

/-- `hook.main` after the `tool_name` check: a non-object `tool_input` is
allowed in normal mode and denied in strict mode. -/
def toolInputDecision (strict : Bool) (fields : List (String × PyVal)) : Decision :=
  match lookupField fields "tool_input" with
  | some (PyVal.dict tfields) => commandDecision strict fields tfields
  | _ => if strict then Decision.deny "Invalid hook input structure." else Decision.allow

/-- `hook.main` on an object envelope: any `tool_name` other than the
string `Bash` allows (in both modes). -/
def dictDecision (strict : Bool) (fields : List (String × PyVal)) : Decision :=
  match lookupField fields "tool_name" with
  | some (PyVal.str name) =>
    if name = "Bash" then toolInputDecision strict fields else Decision.allow
  | _ => Decision.allow

/-- `hook.main`, as a function of the strict flag and the parsed input
envelope (`none` models a JSON decode error).  Only the permission
decision and the core reason string are modelled; the output-envelope
formatting (`BLOCKED` banner, redacted excerpts) is presentation of the
same verdict and out of scope here (spec section 6). -/
def mainDecision (strict : Bool) (input : Option PyVal) : Decision :=
  match input with
  | none => if strict then Decision.deny "Invalid hook input." else Decision.allow
  | some (PyVal.dict fields) => dictDecision strict fields
  | some _ => if strict then Decision.deny "Invalid hook input structure." else Decision.allow

/-- Escape a string for inclusion inside shell double quotes (backslash
before `"` and `\`), matching the double-quote rules of the tokenizer. -/
def escDq : List Char → List Char
  | [] => []
  | c :: r => (if c = '\x22' ∨ c = '\x5c' then ['\x5c', c] else [c]) ++ escDq r

/-- Wrap a string in shell double quotes. -/
def shQuote (s : String) : String :=
  "\x22" ++ String.mk (escDq s.data) ++ "\x22"

/-- `n` nested layers of `bash -c "..."` around an innermost command. -/
def nestBash : Nat → String → String
  | 0, s => s
  | n + 1, s => "bash -c " ++ shQuote (nestBash n s)

/-! ## Helper lemmas -/

set_option maxRecDepth 100000

lemma sub_ne_empty_of_lower {sub w : String} (h : lowerStr sub = w) (hw : w ≠ "") :
    sub ≠ "" := by
  intro he
  subst he
  exact hw (by rw [← h]; rfl)

lemma analyze_git_to_rule {tokens : List String} {sub : String} {rest : List String}
    (hsr : _git_subcommand_and_rest tokens = (some sub, rest)) (hne : sub ≠ "") :
    _analyze_git tokens = gitRule (lowerStr sub) rest := by
  unfold _analyze_git
  rw [hsr]
  show (if sub = "" then none else gitRule (lowerStr sub) rest) = _
  rw [if_neg hne]

lemma analyze_segment_unfold (seg : String) (d : Nat) (c : Option String) (s : Bool) :
    _analyze_segment seg d c s =
      segmentBody
        (fun cmdStr c2 s2 =>
          segLoopF (fun sg c3 => analyzeSegmentF _MAX_RECURSION_DEPTH sg (d + 1) c3 s2)
            (_split_shell_commands cmdStr) c2)
        seg d c s := rfl

lemma interp_not_shell {s : String} (h : s ∈ interpHeads) : ¬ s ∈ shellHeads := by
  simp only [interpHeads, List.mem_cons, List.not_mem_nil, or_false] at h
  rcases h with rfl | rfl | rfl | rfl | rfl <;> decide

lemma segLoopF_eq_findSome (g : String → Option String → Option (String × String)) :
    ∀ (segs : List String) (cwd : Option String),
      segLoopF g segs cwd =
        List.findSome? (fun p : String × Option String => g p.1 p.2)
          (segs.zip (threadCwds segs cwd)) := by
  intro segs
  induction segs with
  | nil => intro cwd; rfl
  | cons s rest ih =>
    intro cwd
    rw [threadCwds, List.zip_cons_cons, List.findSome?_cons]
    show (match g s cwd with
          | some a => some a
          | none => segLoopF g rest (nextCwd cwd s)) = _
    cases g s cwd with
    | some a => rfl
    | none => simpa using ih (nextCwd cwd s)

lemma nextCwd_none (s : String) : nextCwd none s = none := by
  simp [nextCwd]

lemma threadCwds_none :
    ∀ segs : List String, threadCwds segs none = List.replicate segs.length none := by
  intro segs
  induction segs with
  | nil => rfl
  | cons s rest ih => rw [threadCwds, nextCwd_none, ih]; rfl

lemma threadCwds_mono :
    ∀ (segs : List String) (cwd : Option String) (i j : Nat), i ≤ j → j < segs.length →
      (threadCwds segs cwd)[i]? = some none → (threadCwds segs cwd)[j]? = some none := by
  intro segs
  induction segs with
  | nil => intro cwd i j _ hj _; simp at hj
  | cons s rest ih =>
    intro cwd i j hij hj hi
    cases i with
    | zero =>
      have hc : cwd = none := by
        rw [threadCwds] at hi
        simpa using hi
      subst hc
      cases j with
      | zero => exact hi
      | succ j' =>
        rw [threadCwds, nextCwd_none, threadCwds_none]
        simp only [List.getElem?_cons_succ, List.getElem?_replicate]
        rw [if_pos]
        simpa using hj
    | succ i' =>
      cases j with
      | zero => omega
      | succ j' =>
        rw [threadCwds] at hi ⊢
        simp only [List.getElem?_cons_succ] at hi ⊢
        exact ih (nextCwd cwd s) i' j' (by omega) (by simpa using hj) hi

lemma splitSlash_cons (c : Char) (rest : List Char) :
    splitSlash (c :: rest) =
      if c = '/' then [] :: splitSlash rest
      else
        match splitSlash rest with
        | [] => [[c]]
        | h :: t => (c :: h) :: t := rfl

lemma splitSlash_ne_nil : ∀ l : List Char, splitSlash l ≠ [] := by
  intro l
  cases l with
  | nil => simp [splitSlash]
  | cons c rest =>
    rw [splitSlash_cons]
    by_cases h : c = '/'
    · rw [if_pos h]; simp
    · rw [if_neg h]
      cases hs : splitSlash rest <;> simp

lemma joinSlash_splitSlash : ∀ l : List Char, joinSlash (splitSlash l) = l := by
  intro l
  induction l with
  | nil => rfl
  | cons c rest ih =>
    rw [splitSlash_cons]
    by_cases h : c = '/'
    · subst h
      rw [if_pos rfl]
      cases hs : splitSlash rest with
      | nil => exact absurd hs (splitSlash_ne_nil rest)
      | cons h0 t0 =>
        rw [hs] at ih
        cases t0 with
        | nil =>
          show '/' :: joinSlash [h0] = '/' :: rest
          rw [show joinSlash [h0] = h0 from rfl]
          simpa using ih
        | cons y t1 =>
          show [] ++ '/' :: joinSlash (h0 :: y :: t1) = '/' :: rest
          rw [List.nil_append, ih]
    · rw [if_neg h]
      cases hs : splitSlash rest with
      | nil => exact absurd hs (splitSlash_ne_nil rest)
      | cons h0 t0 =>
        rw [hs] at ih
        cases t0 with
        | nil =>
          show c :: h0 = c :: rest
          have hj : joinSlash [h0] = h0 := rfl
          rw [hj] at ih
          rw [ih]
        | cons y t1 =>
          show (c :: h0) ++ '/' :: joinSlash (y :: t1) = c :: rest
          have hj : joinSlash (h0 :: y :: t1) = h0 ++ '/' :: joinSlash (y :: t1) := rfl
          rw [hj] at ih
          simpa using ih

lemma splitSlash_append : ∀ (l1 l2 : List Char), '/' ∉ l1 →
    splitSlash (l1 ++ '/' :: l2) = l1 :: splitSlash l2 := by
  intro l1
  induction l1 with
  | nil =>
    intro l2 _
    show splitSlash ('/' :: l2) = [] :: splitSlash l2
    rw [splitSlash_cons, if_pos rfl]
  | cons c t ih =>
    intro l2 h
    have hc : c ≠ '/' := fun hc => h (by simp [hc])
    have ht : '/' ∉ t := fun hm => h (by simp [hm])
    show splitSlash (c :: (t ++ '/' :: l2)) = (c :: t) :: splitSlash l2
    rw [splitSlash_cons, if_neg hc, ih l2 ht]

lemma data_ne_nil {p : String} (h : p ≠ "") : p.data ≠ [] := by
  intro hd
  exact h (String.ext (by simpa using hd))

lemma norm_home_tilde (p : String) :
    _normalize_home_path ("~/" ++ p) = some (normpathStr p) := by
  unfold _normalize_home_path
  have hd : ("~/" ++ p).data = '~' :: '/' :: p.data := by
    rw [String.data_append]; rfl
  rw [hd]
  rfl

lemma norm_home_dollar (p : String) :
    _normalize_home_path ("$HOME/" ++ p) = some (normpathStr p) := by
  unfold _normalize_home_path
  have hd : ("$HOME/" ++ p).data = '$' :: 'H' :: 'O' :: 'M' :: 'E' :: '/' :: p.data := by
    rw [String.data_append]; rfl
  rw [hd]
  rfl

lemma norm_home_braced (p : String) :
    _normalize_home_path ("${HOME}/" ++ p) = some (normpathStr p) := by
  unfold _normalize_home_path
  have hd : ("${HOME}/" ++ p).data =
      '$' :: '{' :: 'H' :: 'O' :: 'M' :: 'E' :: '}' :: '/' :: p.data := by
    rw [String.data_append]; rfl
  rw [hd]
  rfl

lemma norm_home_homedir (user p : String) (husl : '/' ∉ user.data) (hp : p ≠ "") :
    _normalize_home_path ("/home/" ++ user ++ "/" ++ p) = some (normpathStr p) := by
  unfold _normalize_home_path
  have hd : ("/home/" ++ user ++ "/" ++ p).data
      = '/' :: 'h' :: 'o' :: 'm' :: 'e' :: '/' :: (user.data ++ '/' :: p.data) := by
    simp only [String.data_append, List.append_assoc]
    rfl
  rw [hd]
  have hsp : splitSlash ('/' :: 'h' :: 'o' :: 'm' :: 'e' :: '/' :: (user.data ++ '/' :: p.data))
      = [] :: ['h', 'o', 'm', 'e'] :: user.data :: splitSlash p.data := by
    rw [splitSlash_cons, if_pos rfl]
    rw [show ('h' :: 'o' :: 'm' :: 'e' :: '/' :: (user.data ++ '/' :: p.data))
        = (['h', 'o', 'm', 'e'] ++ '/' :: (user.data ++ '/' :: p.data)) from rfl]
    rw [splitSlash_append ['h', 'o', 'm', 'e'] _ (by decide)]
    rw [splitSlash_append user.data _ husl]
  show (let parts := splitSlash ('/' :: 'h' :: 'o' :: 'm' :: 'e' :: '/' ::
          (user.data ++ '/' :: p.data));
        if 3 ≤ parts.length then
          let r := joinSlash (parts.drop 3)
          if r = [] then some "" else some (String.mk (normpathL r))
        else none) = some (normpathStr p)
  simp only [hsp]
  have hlen : 3 ≤ ([] :: ['h', 'o', 'm', 'e'] :: user.data :: splitSlash p.data).length := by
    simp
  rw [if_pos hlen]
  show (if joinSlash (splitSlash p.data) = [] then some ""
        else some (String.mk (normpathL (joinSlash (splitSlash p.data))))) = some (normpathStr p)
  rw [joinSlash_splitSlash, if_neg (data_ne_nil hp)]
  rfl

lemma analyze_cat_single (path : String) (h : pyStartsWith path "-" = false) :
    _analyze_sensitive_read ["cat", path] =
      (if _is_sensitive_path path then some _REASON_SENSITIVE_READ else none) := by
  have hne2 : path ≠ "--" := by
    intro he; rw [he] at h; exact absurd h (by decide)
  have hnflag : ¬ (pyStartsWith path "-" = true ∧ ¬ path = "-") := by
    intro hc; rw [h] at hc; exact absurd hc.1 (by decide)
  have htg : _extract_file_targets ["cat", path] = [path] := by
    show extractTargetsGo [path] false false = [path]
    unfold extractTargetsGo
    rw [if_neg (show ¬ (false = true) by decide),
        if_neg (show ¬ (false = true) by decide),
        if_neg hne2, if_neg hnflag]
    rfl
  show (if lowerStr "cat" ∈ _READ_COMMANDS then
          (if (_extract_file_targets ["cat", path]).any _is_sensitive_path then
            some _REASON_SENSITIVE_READ
           else none)
        else none) =
    (if _is_sensitive_path path then some _REASON_SENSITIVE_READ else none)
  rw [if_pos (show lowerStr "cat" ∈ _READ_COMMANDS by decide), htg]
  simp only [List.any_cons, List.any_nil, Bool.or_false]

lemma sensitive_iff (path : String) (n : String) (h : _normalize_home_path path = some n) :
    _is_sensitive_path path = true ↔
      (n ∈ _SENSITIVE_FILES ∨ ∃ d ∈ _SENSITIVE_DIRS, n = d ∨ pyStartsWith n (d ++ "/") = true) := by
  unfold _is_sensitive_path
  rw [h]
  simp only [Bool.or_eq_true, decide_eq_true_eq]

lemma sensitive_none_case (path : String) (h : _normalize_home_path path = none) :
    _is_sensitive_path path = false := by
  unfold _is_sensitive_path
  rw [h]

lemma sensitive_congr (p1 p2 : String)
    (h : _normalize_home_path p1 = _normalize_home_path p2) :
    _is_sensitive_path p1 = _is_sensitive_path p2 := by
  unfold _is_sensitive_path
  rw [h]

/-! ## Claim theorems -/

/-- C1: for every token list whose parsed git subcommand is `reset` (after
git's global options, case-insensitively), a `--hard` token anywhere among
the remaining arguments makes the git engine deny with the reset-hard
reason; and the same Deny surfaces when the git command sits in a later
pipeline segment of a full command-line analysis. -/
theorem git_reset_hard_denied (tokens : List String) (sub : String) (rest : List String)
    (hsr : _git_subcommand_and_rest tokens = (some sub, rest))
    (hsub : lowerStr sub = "reset")
    (hhard : "--hard" ∈ rest.map lowerStr) :
    _analyze_git tokens = some _REASON_GIT_RESET_HARD
    ∧ _analyze_command "echo ok | git reset --hard" 0 none false =
        some ("git reset --hard", _REASON_GIT_RESET_HARD) := by
  constructor
  · have hne : sub ≠ "" := sub_ne_empty_of_lower hsub (by decide)
    rw [analyze_git_to_rule hsr hne, hsub]
    simp only [gitRule]
    rw [if_neg (show ¬ ("reset" : String) = "checkout" by decide),
        if_neg (show ¬ ("reset" : String) = "switch" by decide),
        if_neg (show ¬ ("reset" : String) = "restore" by decide),
        if_pos trivial, if_pos hhard]
  · decide

/-- C1 witness: `git -C repo reset -q --HARD` is denied by the git engine,
and `echo ok | git reset --hard` is denied by the full analysis. -/
theorem git_reset_hard_denied_witness :
    _analyze_git ["git", "-C", "repo", "reset", "-q", "--HARD"] = some _REASON_GIT_RESET_HARD
    ∧ _analyze_command "echo ok | git reset --hard" 0 none false =
        some ("git reset --hard", _REASON_GIT_RESET_HARD) :=
  git_reset_hard_denied ["git", "-C", "repo", "reset", "-q", "--HARD"] "reset" ["-q", "--HARD"]
    (by decide) (by decide) (by decide)

/-- C2: a segment whose stripped head is a shell with an extractable `-c`
inline script is denied with the recursion-limit reason as soon as the
current depth reaches the ceiling, whatever the inline script is (the
check happens before any recursive analysis); consequently six nested
levels of `bash -c` around a safe command are denied. -/
theorem recursion_limit_denied (segment : String) (depth : Nat) (cwd : Option String)
    (strict : Bool) (toks : List String) (t0 : String) (tr : List String) (cmdStr : String)
    (htok : _shlex_split segment = some toks)
    (hne : toks ≠ [])
    (hstrip : _strip_wrappers toks = t0 :: tr)
    (hshell : _normalize_cmd_token t0 ∈ shellHeads)
    (harg : _extract_dash_c_arg (t0 :: tr) = some cmdStr)
    (hdepth : _MAX_RECURSION_DEPTH ≤ depth) :
    _analyze_segment segment depth cwd strict =
      some (segment, "Command analysis recursion limit reached.")
    ∧ _analyze_command (nestBash 6 "echo safe") 0 none false =
        some (nestBash 1 "echo safe", "Command analysis recursion limit reached.") := by
  constructor
  · rw [analyze_segment_unfold]
    unfold segmentBody
    rw [htok]
    simp only []
    rw [if_neg hne, hstrip]
    simp only []
    rw [if_pos hshell, harg]
    simp only []
    rw [if_pos hdepth]
  · decide

/-- C2 witness: `bash -c "echo safe"` analyzed at depth 5 is denied with
the recursion-limit reason, and the six-level nesting is denied from
depth 0. -/
theorem recursion_limit_denied_witness :
    _analyze_segment (nestBash 1 "echo safe") 5 none false =
      some (nestBash 1 "echo safe", "Command analysis recursion limit reached.")
    ∧ _analyze_command (nestBash 6 "echo safe") 0 none false =
        some (nestBash 1 "echo safe", "Command analysis recursion limit reached.") :=
  recursion_limit_denied (nestBash 1 "echo safe") 5 none false
    ["bash", "-c", "echo safe"] "bash" ["-c", "echo safe"] "echo safe"
    (by decide) (by decide) (by decide) (by decide) (by decide) (by decide)

/-- C3: for the git `push` subcommand, an invocation carrying some
`--force-with-lease` token (with or without an attached value) and no bare
`--force`/`-f` is allowed, while any invocation carrying `--force` or an
`f` in a short-option group is denied, even when `--force-with-lease` is
also present. -/
theorem git_push_force_policy (tokens : List String) (sub : String) (rest : List String)
    (hsr : _git_subcommand_and_rest tokens = (some sub, rest))
    (hsub : lowerStr sub = "push") :
    ((∃ t ∈ rest.map lowerStr, pyStartsWith t "--force-with-lease" = true) →
       "--force" ∉ rest.map lowerStr → 'f' ∉ _short_opts rest →
       _analyze_git tokens = none)
    ∧ (("--force" ∈ rest.map lowerStr ∨ 'f' ∈ _short_opts rest) →
       _analyze_git tokens = some _REASON_GIT_PUSH_FORCE) := by
  have hne : sub ≠ "" := sub_ne_empty_of_lower hsub (by decide)
  have hred : _analyze_git tokens = gitRule "push" rest := by
    rw [analyze_git_to_rule hsr hne, hsub]
  constructor
  · intro hl hnf hns
    rw [hred]
    simp only [gitRule]
    rw [if_neg (show ¬ ("push" : String) = "checkout" by decide),
        if_neg (show ¬ ("push" : String) = "switch" by decide),
        if_neg (show ¬ ("push" : String) = "restore" by decide),
        if_neg (show ¬ ("push" : String) = "reset" by decide),
        if_neg (show ¬ ("push" : String) = "clean" by decide),
        if_pos trivial]
    rw [if_neg (fun h => h.2 hl), if_neg (fun h => hnf h.1), if_neg (fun h => hns h.1)]
  · intro hf
    rw [hred]
    simp only [gitRule]
    rw [if_neg (show ¬ ("push" : String) = "checkout" by decide),
        if_neg (show ¬ ("push" : String) = "switch" by decide),
        if_neg (show ¬ ("push" : String) = "restore" by decide),
        if_neg (show ¬ ("push" : String) = "reset" by decide),
        if_neg (show ¬ ("push" : String) = "clean" by decide),
        if_pos trivial]
    by_cases hl : ∃ t ∈ rest.map lowerStr, pyStartsWith t "--force-with-lease" = true
    · rw [if_neg (fun h => h.2 hl)]
      by_cases hff : "--force" ∈ rest.map lowerStr
      · rw [if_pos ⟨hff, hl⟩]
      · have hfs : 'f' ∈ _short_opts rest := hf.resolve_left hff
        rw [if_neg (fun h => hff h.1), if_pos ⟨hfs, hl⟩]
    · rw [if_pos ⟨hf, hl⟩]

/-- C3 witness: `git push --force-with-lease=main` is allowed and
`git push -f --force-with-lease` is denied. -/
theorem git_push_force_policy_witness :
    _analyze_git ["git", "push", "--force-with-lease=main"] = none
    ∧ _analyze_git ["git", "push", "-f", "--force-with-lease"] = some _REASON_GIT_PUSH_FORCE :=
  ⟨(git_push_force_policy ["git", "push", "--force-with-lease=main"] "push"
      ["--force-with-lease=main"] (by decide) (by decide)).1 (by decide) (by decide) (by decide),
   (git_push_force_policy ["git", "push", "-f", "--force-with-lease"] "push"
      ["-f", "--force-with-lease"] (by decide) (by decide)).2 (by decide)⟩

/-- C4: the four home prefixes all normalize a path argument to the same
home-relative form; the sensitive-path test holds exactly when that
normalized form is a sensitive file or equals / lies under a sensitive
directory; a path not under home is never sensitive; and a `cat` of one
path argument is denied exactly when the path is sensitive — with the
spec's concrete examples. -/
theorem sensitive_read_classification :
    (∀ p user : String, p ≠ "" → user ≠ "" → '/' ∉ user.data →
       _normalize_home_path ("~/" ++ p) = some (normpathStr p)
       ∧ _normalize_home_path ("$HOME/" ++ p) = some (normpathStr p)
       ∧ _normalize_home_path ("${HOME}/" ++ p) = some (normpathStr p)
       ∧ _normalize_home_path ("/home/" ++ user ++ "/" ++ p) = some (normpathStr p))
    ∧ (∀ path n, _normalize_home_path path = some n →
       (_is_sensitive_path path = true ↔
         (n ∈ _SENSITIVE_FILES ∨ ∃ d ∈ _SENSITIVE_DIRS, n = d ∨ pyStartsWith n (d ++ "/") = true)))
    ∧ (∀ path, _normalize_home_path path = none → _is_sensitive_path path = false)
    ∧ (∀ path, pyStartsWith path "-" = false →
       _analyze_sensitive_read ["cat", path] =
         (if _is_sensitive_path path then some _REASON_SENSITIVE_READ else none))
    ∧ _analyze_sensitive_read ["cat", "~/.ssh/id_rsa"] = some _REASON_SENSITIVE_READ
    ∧ _analyze_sensitive_read ["cat", "$HOME/.ssh/id_rsa"] = some _REASON_SENSITIVE_READ
    ∧ _analyze_sensitive_read ["cat", "/home/alice/.ssh/id_rsa"] = some _REASON_SENSITIVE_READ
    ∧ _analyze_sensitive_read ["cat", "~/.bashrc"] = none
    ∧ _analyze_sensitive_read ["cat", "~/.claude/settings.json"] = none :=
  ⟨fun p user hp _hu husl =>
    ⟨norm_home_tilde p, norm_home_dollar p, norm_home_braced p,
     norm_home_homedir user p husl hp⟩,
   sensitive_iff, sensitive_none_case, analyze_cat_single,
   by decide, by decide, by decide, by decide, by decide⟩

/-- C4 witness: the four prefixed forms of `.config/gh/hosts.yml` all
normalize identically, and `~/.gitconfig` is classified sensitive through
the exact-file clause. -/
theorem sensitive_read_classification_witness :
    (_normalize_home_path ("~/" ++ ".config/gh/hosts.yml") =
        some (normpathStr ".config/gh/hosts.yml")
     ∧ _normalize_home_path ("$HOME/" ++ ".config/gh/hosts.yml") =
        some (normpathStr ".config/gh/hosts.yml")
     ∧ _normalize_home_path ("${HOME}/" ++ ".config/gh/hosts.yml") =
        some (normpathStr ".config/gh/hosts.yml")
     ∧ _normalize_home_path ("/home/" ++ "bob" ++ "/" ++ ".config/gh/hosts.yml") =
        some (normpathStr ".config/gh/hosts.yml"))
    ∧ _is_sensitive_path "~/.gitconfig" = true :=
  ⟨sensitive_read_classification.1 ".config/gh/hosts.yml" "bob"
     (by decide) (by decide) (by decide),
   (sensitive_read_classification.2.1 "~/.gitconfig" ".gitconfig" (by decide)).2 (by decide)⟩

/-- C5 counterexample: the claim says a non-Bash tool identifier is one of
the "first three" malformed inputs that resolve to Deny in strict mode,
but on a well-formed object envelope whose `tool_name` is the string
`Write`, the decision in strict mode is Allow. -/
theorem malformed_input_counterexample :
    mainDecision true (some (PyVal.dict [("tool_name", PyVal.str "Write")])) =
      Decision.allow := by
  decide

/-- C5 as amended: an unparsable envelope and a non-object envelope
resolve to Allow in normal mode and to Deny with a generic invalid-input
reason in strict mode, as does a non-object `tool_input` field; a
non-matching tool identifier and a missing, non-string or blank command
text resolve to Allow in both modes. -/
theorem malformed_input_policy_amended :
    (∀ strict, mainDecision strict none =
       if strict then Decision.deny "Invalid hook input." else Decision.allow)
    ∧ (∀ strict s, mainDecision strict (some (PyVal.str s)) =
       if strict then Decision.deny "Invalid hook input structure." else Decision.allow)
    ∧ (∀ strict, mainDecision strict (some PyVal.other) =
       if strict then Decision.deny "Invalid hook input structure." else Decision.allow)
    ∧ (∀ strict fields, lookupField fields "tool_name" ≠ some (PyVal.str "Bash") →
       mainDecision strict (some (PyVal.dict fields)) = Decision.allow)
    ∧ (∀ strict fields,
       lookupField fields "tool_name" = some (PyVal.str "Bash") →
       (∀ tf, lookupField fields "tool_input" ≠ some (PyVal.dict tf)) →
       mainDecision strict (some (PyVal.dict fields)) =
         if strict then Decision.deny "Invalid hook input structure." else Decision.allow)
    ∧ (∀ strict fields tfields,
       lookupField fields "tool_name" = some (PyVal.str "Bash") →
       lookupField fields "tool_input" = some (PyVal.dict tfields) →
       (∀ s, lookupField tfields "command" = some (PyVal.str s) → pyStrip s = "") →
       mainDecision strict (some (PyVal.dict fields)) = Decision.allow) := by
  refine ⟨fun strict => rfl, fun strict s => rfl, fun strict => rfl, ?_, ?_, ?_⟩
  · intro strict fields h
    show dictDecision strict fields = Decision.allow
    unfold dictDecision
    cases hl : lookupField fields "tool_name" with
    | none => rfl
    | some v =>
      cases v with
      | str name =>
        show (if name = "Bash" then toolInputDecision strict fields else Decision.allow) =
          Decision.allow
        by_cases hn : name = "Bash"
        · rw [hn] at hl; exact absurd hl h
        · rw [if_neg hn]
      | dict _ => rfl
      | other => rfl
  · intro strict fields h1 h2
    show dictDecision strict fields = _
    unfold dictDecision
    rw [h1]
    show toolInputDecision strict fields = _
    unfold toolInputDecision
    cases hti : lookupField fields "tool_input" with
    | none => rfl
    | some v =>
      cases v with
      | str _ => rfl
      | dict tf => exact absurd hti (h2 tf)
      | other => rfl
  · intro strict fields tfields h1 h2 h3
    show dictDecision strict fields = _
    unfold dictDecision
    rw [h1]
    show toolInputDecision strict fields = _
    unfold toolInputDecision
    rw [h2]
    show commandDecision strict fields tfields = _
    unfold commandDecision
    cases hc : lookupField tfields "command" with
    | none => rfl
    | some v =>
      cases v with
      | str s =>
        show (if pyStrip s = "" then Decision.allow else _) = Decision.allow
        rw [if_pos (h3 s hc)]
      | dict _ => rfl
      | other => rfl

/-- C5 witness: concrete strict-mode decisions for each malformed-input
shape of the amended claim. -/
theorem malformed_input_policy_amended_witness :
    mainDecision true none = Decision.deny "Invalid hook input."
    ∧ mainDecision true (some PyVal.other) = Decision.deny "Invalid hook input structure."
    ∧ mainDecision true (some (PyVal.dict [("tool_name", PyVal.str "Write")])) = Decision.allow
    ∧ mainDecision true (some (PyVal.dict
        [("tool_name", PyVal.str "Bash"), ("tool_input", PyVal.other)])) =
      Decision.deny "Invalid hook input structure."
    ∧ mainDecision false (some (PyVal.dict
        [("tool_name", PyVal.str "Bash"),
         ("tool_input", PyVal.dict [("command", PyVal.str "   ")])])) = Decision.allow :=
  ⟨malformed_input_policy_amended.1 true,
   malformed_input_policy_amended.2.2.1 true,
   malformed_input_policy_amended.2.2.2.1 true [("tool_name", PyVal.str "Write")]
     (by intro h; simp [lookupField] at h),
   malformed_input_policy_amended.2.2.2.2.1 true
     [("tool_name", PyVal.str "Bash"), ("tool_input", PyVal.other)]
     (by simp [lookupField])
     (by intro tf h; simp [lookupField] at h),
   malformed_input_policy_amended.2.2.2.2.2 false
     [("tool_name", PyVal.str "Bash"),
      ("tool_input", PyVal.dict [("command", PyVal.str "   ")])]
     [("command", PyVal.str "   ")]
     (by simp [lookupField])
     (by simp [lookupField])
     (by
       intro s hs
       rw [show lookupField [("command", PyVal.str "   ")] "command" =
           some (PyVal.str "   ") from rfl] at hs
       injection hs with h1
       injection h1 with h2
       rw [← h2]
       decide)⟩

/-- C6: the command analysis equals the first Deny found by scanning the
segments in order with the threaded cwd sequence (so every segment is
reachable regardless of the joining operators and no segment after the
first violation matters); in particular `git status && git reset --hard`
is Deny while `git clean -n && git status` is Allow. -/
theorem first_violation_wins :
    (∀ command depth cwd strict,
       _analyze_command command depth cwd strict =
         List.findSome? (fun p : String × Option String => _analyze_segment p.1 depth p.2 strict)
           ((_split_shell_commands command).zip
             (threadCwds (_split_shell_commands command) cwd)))
    ∧ _analyze_command "git status && git reset --hard" 0 none false =
        some ("git reset --hard", _REASON_GIT_RESET_HARD)
    ∧ _analyze_command "git clean -n && git status" 0 none false = none :=
  ⟨fun _command _depth _cwd _strict => segLoopF_eq_findSome _ _ _, by decide, by decide⟩

/-- C7: for the git `branch` subcommand, any `-d`/`-D` (standalone or as a
letter in a short-option group) is denied as deletion; with no deletion
flag, an empty or all-flag argument list is allowed while any positional
argument is denied as branch creation. -/
theorem git_branch_policy (tokens : List String) (sub : String) (rest : List String)
    (hsr : _git_subcommand_and_rest tokens = (some sub, rest))
    (hsub : lowerStr sub = "branch") :
    (("-D" ∈ rest ∨ 'D' ∈ _short_opts rest ∨ "-d" ∈ rest ∨ 'd' ∈ _short_opts rest) →
       _analyze_git tokens = some _REASON_GIT_BRANCH_DELETE)
    ∧ (¬ ("-D" ∈ rest ∨ 'D' ∈ _short_opts rest ∨ "-d" ∈ rest ∨ 'd' ∈ _short_opts rest) →
       (rest = [] ∨ ∀ t ∈ rest, pyStartsWith t "-" = true) →
       _analyze_git tokens = none)
    ∧ (¬ ("-D" ∈ rest ∨ 'D' ∈ _short_opts rest ∨ "-d" ∈ rest ∨ 'd' ∈ _short_opts rest) →
       (∃ t ∈ rest, pyStartsWith t "-" = false) →
       _analyze_git tokens = some _REASON_GIT_BRANCH_CREATE) := by
  have hne : sub ≠ "" := sub_ne_empty_of_lower hsub (by decide)
  have hred : _analyze_git tokens = gitRule "branch" rest := by
    rw [analyze_git_to_rule hsr hne, hsub]
  refine ⟨fun hdel => ?_, fun hnd hflags => ?_, fun hnd hpos => ?_⟩
  · rw [hred]
    simp only [gitRule]
    rw [if_neg (show ¬ ("branch" : String) = "checkout" by decide),
        if_neg (show ¬ ("branch" : String) = "switch" by decide),
        if_neg (show ¬ ("branch" : String) = "restore" by decide),
        if_neg (show ¬ ("branch" : String) = "reset" by decide),
        if_neg (show ¬ ("branch" : String) = "clean" by decide),
        if_neg (show ¬ ("branch" : String) = "push" by decide),
        if_pos trivial, if_pos hdel]
  · rw [hred]
    simp only [gitRule]
    rw [if_neg (show ¬ ("branch" : String) = "checkout" by decide),
        if_neg (show ¬ ("branch" : String) = "switch" by decide),
        if_neg (show ¬ ("branch" : String) = "restore" by decide),
        if_neg (show ¬ ("branch" : String) = "reset" by decide),
        if_neg (show ¬ ("branch" : String) = "clean" by decide),
        if_neg (show ¬ ("branch" : String) = "push" by decide),
        if_pos trivial, if_neg hnd, if_pos hflags]
  · rw [hred]
    simp only [gitRule]
    rw [if_neg (show ¬ ("branch" : String) = "checkout" by decide),
        if_neg (show ¬ ("branch" : String) = "switch" by decide),
        if_neg (show ¬ ("branch" : String) = "restore" by decide),
        if_neg (show ¬ ("branch" : String) = "reset" by decide),
        if_neg (show ¬ ("branch" : String) = "clean" by decide),
        if_neg (show ¬ ("branch" : String) = "push" by decide),
        if_pos trivial, if_neg hnd, if_neg ?_]
    obtain ⟨t, ht, hts⟩ := hpos
    rintro (rfl | hall)
    · exact (List.not_mem_nil t) ht
    · have hcontra := hall t ht
      rw [hts] at hcontra
      exact absurd hcontra (by decide)

/-- C7 witness: `git branch -D x` is denied as deletion, `git branch -v`
is allowed, and `git branch new-name` is denied as creation. -/
theorem git_branch_policy_witness :
    _analyze_git ["git", "branch", "-D", "x"] = some _REASON_GIT_BRANCH_DELETE
    ∧ _analyze_git ["git", "branch", "-v"] = none
    ∧ _analyze_git ["git", "branch", "new-name"] = some _REASON_GIT_BRANCH_CREATE :=
  ⟨(git_branch_policy ["git", "branch", "-D", "x"] "branch" ["-D", "x"]
      (by decide) (by decide)).1 (by decide),
   (git_branch_policy ["git", "branch", "-v"] "branch" ["-v"]
      (by decide) (by decide)).2.1 (by decide) (by decide),
   (git_branch_policy ["git", "branch", "new-name"] "branch" ["new-name"]
      (by decide) (by decide)).2.2 (by decide) (by decide)⟩

/-- C8: the sequence of inferred working directories threaded through one
top-level analysis is monotone: once unknown at some segment, it is
unknown at every later segment; and the command analysis is exactly the
segment scan over that threaded sequence. -/
theorem cwd_never_reverts :
    (∀ (segs : List String) (cwd : Option String) (i j : Nat),
       i ≤ j → j < segs.length →
       (threadCwds segs cwd)[i]? = some none → (threadCwds segs cwd)[j]? = some none)
    ∧ (∀ command depth cwd strict,
       _analyze_command command depth cwd strict =
         List.findSome? (fun p : String × Option String => _analyze_segment p.1 depth p.2 strict)
           ((_split_shell_commands command).zip
             (threadCwds (_split_shell_commands command) cwd))) :=
  ⟨threadCwds_mono, fun _command _depth _cwd _strict => segLoopF_eq_findSome _ _ _⟩

/-- C8 witness: after a `cd /tmp` segment the threaded cwd is unknown at
index 1 and, by monotonicity, still unknown at index 2. -/
theorem cwd_never_reverts_witness :
    (threadCwds ["cd /tmp", "ls", "pwd"] (some "/home/u"))[2]? = some none :=
  cwd_never_reverts.1 ["cd /tmp", "ls", "pwd"] (some "/home/u") 1 2
    (by decide) (by decide) (by decide)

/-- C9: a segment whose stripped head is a scripting interpreter with an
extractable `-c`/`-e` inline-code argument is decided by the textual
heuristic on the inline code alone: the heuristic's Deny is returned when
it matches, and in strict mode the one-liner is denied with the
cannot-safely-analyze reason even when the heuristic matches nothing. -/
theorem interpreter_oneliner_policy (segment : String) (depth : Nat) (cwd : Option String)
    (strict : Bool) (toks : List String) (t0 : String) (tr : List String) (code : String)
    (htok : _shlex_split segment = some toks)
    (hne : toks ≠ [])
    (hstrip : _strip_wrappers toks = t0 :: tr)
    (hinterp : _normalize_cmd_token t0 ∈ interpHeads)
    (harg : _extract_pythonish_code_arg (t0 :: tr) = some code) :
    (∀ r, _dangerous_in_text code = some r →
       _analyze_segment segment depth cwd strict = some (segment, r))
    ∧ (_dangerous_in_text code = none → strict = true →
       _analyze_segment segment depth cwd strict =
         some (segment, "Cannot safely analyze interpreter one-liners." ++ _STRICT_SUFFIX)) := by
  have hred : _analyze_segment segment depth cwd strict =
      interpStep segment (t0 :: tr) (_normalize_cmd_token t0) cwd strict := by
    rw [analyze_segment_unfold]
    unfold segmentBody
    rw [htok]
    simp only []
    rw [if_neg hne, hstrip]
    simp only []
    rw [if_neg (interp_not_shell hinterp)]
  constructor
  · intro r hr
    rw [hred]
    unfold interpStep
    rw [if_pos hinterp, harg]
    simp only []
    rw [hr]
  · intro hnone hs
    rw [hred]
    unfold interpStep
    rw [if_pos hinterp, harg]
    simp only []
    rw [hnone]
    simp only []
    rw [if_pos hs]

/-- C9 witness: a python one-liner hiding `git reset --hard` is denied by
the heuristic, and a harmless perl one-liner is denied in strict mode with
the cannot-safely-analyze reason. -/
theorem interpreter_oneliner_policy_witness :
    _analyze_segment "python -c \x22os.system(\x27git reset --hard\x27)\x22" 0 none false =
      some ("python -c \x22os.system(\x27git reset --hard\x27)\x22", _REASON_GIT_RESET_HARD)
    ∧ _analyze_segment "perl -e \x22print 42\x22" 0 none true =
      some ("perl -e \x22print 42\x22",
        "Cannot safely analyze interpreter one-liners." ++ _STRICT_SUFFIX) :=
  ⟨(interpreter_oneliner_policy "python -c \x22os.system(\x27git reset --hard\x27)\x22"
      0 none false ["python", "-c", "os.system(\x27git reset --hard\x27)"] "python"
      ["-c", "os.system(\x27git reset --hard\x27)"] "os.system(\x27git reset --hard\x27)"
      (by decide) (by decide) (by decide) (by decide) (by decide)).1
      _REASON_GIT_RESET_HARD (by decide),
   (interpreter_oneliner_policy "perl -e \x22print 42\x22" 0 none true
      ["perl", "-e", "print 42"] "perl" ["-e", "print 42"] "print 42"
      (by decide) (by decide) (by decide) (by decide) (by decide)).2 (by decide) rfl⟩

/-- C10: the sensitive-path classification depends only on the normalized
home-relative form, so two path arguments that normalize identically get
the same verdict from the sensitive-read engine; `cat ~/.ssh/../.ssh/id_rsa`
is denied like `cat ~/.ssh/id_rsa`, while `cat ~/.ssh/..` (normalizing to
the home root itself) is allowed. -/
theorem sensitive_normalization_invariance :
    (∀ p1 p2 : String, _normalize_home_path p1 = _normalize_home_path p2 →
       _is_sensitive_path p1 = _is_sensitive_path p2)
    ∧ (∀ p1 p2 : String, pyStartsWith p1 "-" = false → pyStartsWith p2 "-" = false →
       _normalize_home_path p1 = _normalize_home_path p2 →
       _analyze_sensitive_read ["cat", p1] = _analyze_sensitive_read ["cat", p2])
    ∧ _analyze_sensitive_read ["cat", "~/.ssh/../.ssh/id_rsa"] = some _REASON_SENSITIVE_READ
    ∧ _analyze_sensitive_read ["cat", "~/.ssh/.."] = none := by
  refine ⟨sensitive_congr, ?_, by decide, by decide⟩
  intro p1 p2 h1 h2 h
  rw [analyze_cat_single p1 h1, analyze_cat_single p2 h2, sensitive_congr p1 p2 h]

/-- C10 witness: `$HOME/.ssh/./id_rsa` and `~/.ssh/id_rsa` normalize
identically and therefore classify identically. -/
theorem sensitive_normalization_invariance_witness :
    _is_sensitive_path "$HOME/.ssh/./id_rsa" = _is_sensitive_path "~/.ssh/id_rsa" :=
  sensitive_normalization_invariance.1 "$HOME/.ssh/./id_rsa" "~/.ssh/id_rsa" (by decide)
